import Mathlib

/-!
Shallow embedding of the chromascope audio feature pipeline
(`src/chromascope/core/polisher.py`, `core/analyzer.py`, `io/exporter.py`,
`pipeline.py`).  Machine floats are modelled by rationals; numpy arrays by
`List ℚ`; fallible code (Python exceptions) by `Option`/`Except`.
-/

namespace Chromascope

/-- Attack/Release envelope parameters in milliseconds (`EnvelopeParams`
in polisher.py). -/
structure EnvelopeParams where
  attack_ms : ℚ
  release_ms : ℚ

/-- numpy `np.clip(x, lo, hi)`: values below `lo` become `lo`, values above
`hi` become `hi`. -/
def clip (x lo hi : ℚ) : ℚ := min (max x lo) hi

/-- numpy `np.min` over a frame array.  numpy raises on an empty array; the
embedding totalizes that case to 0 (only nonempty per-frame arrays occur). -/
def listMin : List ℚ → ℚ
  | [] => 0
  | x :: xs => xs.foldl min x

/-- numpy `np.max` over a frame array (empty case totalized to 0 as in
`listMin`). -/
def listMax : List ℚ → ℚ
  | [] => 0
  | x :: xs => xs.foldl max x

/-- The `SignalPolisher` object state: constructor arguments of
`SignalPolisher.__init__` (polisher.py), after the `or`-defaulting of the
two envelopes. -/
structure SignalPolisher where
  fps : ℕ
  impact_envelope : EnvelopeParams
  energy_envelope : EnvelopeParams
  adaptive_envelopes : Bool

/-- `SignalPolisher._ms_to_frames`: `max(1, int((ms / 1000.0) * self.fps))`.
Python `int` truncates toward zero; combined with the outer `max 1` this
coincides with `max 1 ⌊·⌋.toNat` for every real argument. -/
def SignalPolisher.ms_to_frames (p : SignalPolisher) (ms : ℚ) : ℕ :=
  max 1 (⌊ms / 1000 * (p.fps : ℚ)⌋.toNat)

/-- `SignalPolisher.normalize(signal, floor=0.001)`: min-max scaling with a
zero fallback when the value range is below `floor` (polisher.py). -/
def normalize (signal : List ℚ) (floor : ℚ) : List ℚ :=
  let min_val := listMin signal
  let max_val := listMax signal
  let range_val := max_val - min_val
  if range_val < floor then
    List.replicate signal.length 0
  else
    signal.map (fun x => clip ((x - min_val) / range_val) 0 1)

/-- One step of the asymmetric follower in `SignalPolisher.apply_envelope`:
attack when the target exceeds the current value, release otherwise. -/
def envStep (attack_frames release_frames : ℕ) (current target : ℚ) : ℚ :=
  if current < target then
    if attack_frames ≤ 1 then target
    else current + (target - current) * (1 / (attack_frames : ℚ))
  else
    if release_frames ≤ 1 then target
    else current - (current - target) * (1 / (release_frames : ℚ))

/-- The loop of `SignalPolisher.apply_envelope`: fold `envStep` over the
signal, emitting the running value at every frame. -/
def envRun (aF rF : ℕ) (current : ℚ) : List ℚ → List ℚ
  | [] => []
  | t :: ts =>
    let c := envStep aF rF current t
    c :: envRun aF rF c ts

/-- `SignalPolisher.apply_envelope(signal, params)`: run the follower from
`current = 0.0`, then `np.clip(output, 0.0, 1.0)`. -/
def SignalPolisher.apply_envelope (p : SignalPolisher) (signal : List ℚ)
    (params : EnvelopeParams) : List ℚ :=
  (envRun (p.ms_to_frames params.attack_ms) (p.ms_to_frames params.release_ms)
      0 signal).map (fun x => clip x 0 1)

/-- Python/numpy index semantics for the fancy-index assignment in
`create_beat_array`: a non-negative index addresses from the front, a
negative index wraps from the back. -/
def pyIndex (n : ℕ) (b : ℤ) : ℤ := if 0 ≤ b then b else b + (n : ℤ)

/-- `SignalPolisher.create_beat_array(n_frames, beat_frames)`: zeros, keep the
events with index `< n_frames`, set those positions True.  numpy raises
`IndexError` when a kept (necessarily negative) index is below `-n_frames`;
that is the `none` case. -/
def create_beat_array (n_frames : ℕ) (beat_frames : List ℤ) : Option (List Bool) :=
  let valid := beat_frames.filter (fun b => b < (n_frames : ℤ))
  if valid.all (fun b => -(n_frames : ℤ) ≤ b) then
    some ((List.range n_frames).map
      (fun (i : ℕ) => valid.any (fun b => pyIndex n_frames b == (i : ℤ))))
  else
    none

/-- `SignalPolisher.create_onset_array(n_frames, onset_frames)`: the source
duplicates `create_beat_array` verbatim for onsets. -/
def create_onset_array (n_frames : ℕ) (onset_frames : List ℤ) : Option (List Bool) :=
  let valid := onset_frames.filter (fun b => b < (n_frames : ℤ))
  if valid.all (fun b => -(n_frames : ℤ) ≤ b) then
    some ((List.range n_frames).map
      (fun (i : ℕ) => valid.any (fun b => pyIndex n_frames b == (i : ℤ))))
  else
    none

/-- `SignalPolisher.smooth_spectral_centroid(centroid, sr)`: rescale
100 Hz–10 kHz linearly to [0,1], clip, then pass through the energy
envelope.  The `sr` argument is unused in the source body as well. -/
def SignalPolisher.smooth_spectral_centroid (p : SignalPolisher)
    (centroid : List ℚ) (sr : ℕ) : List ℚ :=
  let _ := sr
  let brightness := centroid.map (fun c => clip ((c - 100) / (10000 - 100)) 0 1)
  p.apply_envelope brightness p.energy_envelope

/-- Beat and onset timing features (`TemporalFeatures` in analyzer.py).
Frame-index arrays are integer numpy arrays, hence `List ℤ`. -/
structure TemporalFeatures where
  bpm : ℚ
  beat_frames : List ℤ
  beat_times : List ℚ
  onset_frames : List ℤ
  onset_times : List ℚ
  tempo_curve_bpm : Option (List ℚ)
  tempo_curve_times : Option (List ℚ)

/-- Energy levels for frequency sub-bands (`FrequencyBands` in analyzer.py). -/
structure FrequencyBands where
  sub_bass : List ℚ
  bass : List ℚ
  low_mid : List ℚ
  mid : List ℚ
  high_mid : List ℚ
  presence : List ℚ
  brilliance : List ℚ
  low : List ℚ
  mid_aggregate : List ℚ
  high : List ℚ

/-- Energy-related features (`EnergyFeatures` in analyzer.py). -/
structure EnergyFeatures where
  rms : List ℚ
  rms_harmonic : List ℚ
  rms_percussive : List ℚ
  spectral_flux : List ℚ
  frequency_bands : FrequencyBands

/-- Pitch and timbre features (`TonalityFeatures` in analyzer.py).  `chroma`
has shape (12, n_frames): a list of 12 rows. -/
structure TonalityFeatures where
  chroma : List (List ℚ)
  spectral_centroid : List ℚ
  spectral_flatness : List ℚ
  spectral_rolloff : List ℚ
  zero_crossing_rate : List ℚ
  dominant_chroma_indices : List ℤ
  mfcc : Option (List (List ℚ))

/-- Complete raw feature set (`ExtractedFeatures` in analyzer.py). -/
structure ExtractedFeatures where
  temporal : TemporalFeatures
  energy : EnergyFeatures
  tonality : TonalityFeatures
  n_frames : ℕ
  hop_length : ℕ
  sample_rate : ℕ
  frame_times : List ℚ

/-- Smoothed and normalized features (`PolishedFeatures` in polisher.py). -/
structure PolishedFeatures where
  is_beat : List Bool
  is_onset : List Bool
  percussive_impact : List ℚ
  harmonic_energy : List ℚ
  global_energy : List ℚ
  spectral_flux : List ℚ
  sub_bass : List ℚ
  bass : List ℚ
  low_mid : List ℚ
  mid : List ℚ
  high_mid : List ℚ
  presence : List ℚ
  brilliance : List ℚ
  low_energy : List ℚ
  mid_energy : List ℚ
  high_energy : List ℚ
  spectral_brightness : List ℚ
  spectral_flatness : List ℚ
  spectral_rolloff : List ℚ
  zero_crossing_rate : List ℚ
  chroma : List (List ℚ)
  dominant_chroma_indices : List ℤ
  n_frames : ℕ
  fps : ℕ
  frame_times : List ℚ
deriving Inhabited

/-- The chroma-normalization loop of `SignalPolisher.polish`:
`np.zeros_like(chroma)` then `chroma_normalized[i] = normalize(chroma[i])`
for `i in range(12)`.  Rows past the first 12 stay zero rows; fewer than 12
rows raise `IndexError` in Python (handled by the caller via `Option`). -/
def normalizeChromaRows (chroma : List (List ℚ)) : List (List ℚ) :=
  (chroma.take 12).map (fun r => normalize r (1/1000)) ++
    (chroma.drop 12).map (fun r => r.map (fun _ => (0 : ℚ)))

/-- The BPM-adaptive scale factor of `SignalPolisher.polish`:
`getattr(features.temporal, "bpm", 120.0) or 120.0` (Python `or` replaces
the falsy 0.0), then `scale = 120.0 / max(bpm, 1.0)` clipped to [0.5, 2.0]. -/
def adaptScale (bpm0 : ℚ) : ℚ :=
  let bpm := if bpm0 = 0 then 120 else bpm0
  clip (120 / max bpm 1) (1/2) 2

/-- The envelope rescaling of `SignalPolisher.polish` when
`adaptive_envelopes` is set: release time multiplied by the scale, attack
unchanged; otherwise the envelope is used as-is. -/
def adaptEnv (adaptive : Bool) (scale : ℚ) (env : EnvelopeParams) : EnvelopeParams :=
  if adaptive then EnvelopeParams.mk env.attack_ms (env.release_ms * scale) else env

/-- `SignalPolisher.polish(features)` (polisher.py lines 232-354): boolean
trigger arrays, optional BPM-adaptive envelope scaling (`adaptEnv` applied
to both envelopes with `adaptScale` of the detected BPM), per-stream
normalize-then-envelope, chroma row normalization.  `none` exactly when the
Python code raises (event index below `-n_frames`, or fewer than 12 chroma
rows). -/
def SignalPolisher.polish (p : SignalPolisher) (features : ExtractedFeatures) :
    Option PolishedFeatures :=
  match create_beat_array features.n_frames features.temporal.beat_frames,
        create_onset_array features.n_frames features.temporal.onset_frames with
  | some is_beat, some is_onset =>
    if features.tonality.chroma.length < 12 then none
    else
      have impact_env :=
        adaptEnv p.adaptive_envelopes (adaptScale features.temporal.bpm)
          p.impact_envelope
      have energy_env :=
        adaptEnv p.adaptive_envelopes (adaptScale features.temporal.bpm)
          p.energy_envelope
      have fb := features.energy.frequency_bands
      some
        { is_beat := is_beat
          is_onset := is_onset
          percussive_impact :=
            p.apply_envelope (normalize features.energy.rms_percussive (1/1000)) impact_env
          harmonic_energy :=
            p.apply_envelope (normalize features.energy.rms_harmonic (1/1000)) energy_env
          global_energy :=
            p.apply_envelope (normalize features.energy.rms (1/1000)) energy_env
          spectral_flux :=
            p.apply_envelope (normalize features.energy.spectral_flux (1/1000)) impact_env
          sub_bass := p.apply_envelope (normalize fb.sub_bass (1/1000)) energy_env
          bass := p.apply_envelope (normalize fb.bass (1/1000)) energy_env
          low_mid := p.apply_envelope (normalize fb.low_mid (1/1000)) energy_env
          mid := p.apply_envelope (normalize fb.mid (1/1000)) energy_env
          high_mid := p.apply_envelope (normalize fb.high_mid (1/1000)) energy_env
          presence := p.apply_envelope (normalize fb.presence (1/1000)) energy_env
          brilliance := p.apply_envelope (normalize fb.brilliance (1/1000)) energy_env
          low_energy := p.apply_envelope (normalize fb.low (1/1000)) energy_env
          mid_energy := p.apply_envelope (normalize fb.mid_aggregate (1/1000)) energy_env
          high_energy := p.apply_envelope (normalize fb.high (1/1000)) energy_env
          spectral_brightness :=
            p.smooth_spectral_centroid features.tonality.spectral_centroid
              features.sample_rate
          spectral_flatness :=
            p.apply_envelope (normalize features.tonality.spectral_flatness (1/1000)) energy_env
          spectral_rolloff :=
            p.apply_envelope (normalize features.tonality.spectral_rolloff (1/1000)) energy_env
          zero_crossing_rate :=
            p.apply_envelope (normalize features.tonality.zero_crossing_rate (1/1000)) energy_env
          chroma := normalizeChromaRows features.tonality.chroma
          dominant_chroma_indices := features.tonality.dominant_chroma_indices
          n_frames := features.n_frames
          fps := p.fps
          frame_times := features.frame_times }
  | _, _ => none

/-- The `FeatureAnalyzer` object state (analyzer.py `__init__`). -/
structure FeatureAnalyzer where
  target_fps : ℕ
  n_fft : ℕ

/-- `FeatureAnalyzer.compute_hop_length(sr)`: `int(sr / self.target_fps)`.
Python `int` truncates the float quotient toward zero, i.e. floor for the
non-negative quotient of two naturals. -/
def FeatureAnalyzer.compute_hop_length (a : FeatureAnalyzer) (sr : ℕ) : ℕ :=
  (⌊(sr : ℚ) / (a.target_fps : ℚ)⌋).toNat

/-- The 12 canonical pitch-class names (`FeatureAnalyzer.CHROMA_NAMES`). -/
def CHROMA_NAMES : List String :=
  ["C", "C#", "D", "D#", "E", "F"] ++ ["F#", "G", "G#", "A", "A#", "B"]

/-- `FeatureAnalyzer.chroma_index_to_name(index)`: `CHROMA_NAMES[index % 12]`.
Python `%` on ints matches `Int.emod` (result in `[0, 12)`), so the lookup
never goes out of bounds; the `getD` default is never reached. -/
def chroma_index_to_name (index : ℤ) : String :=
  CHROMA_NAMES.getD (index % 12).toNat "C"

/-- `FeatureAnalyzer._bandpass_rms(y, low_freq, high_freq, sr, hop_length)`.
The Butterworth filter + `librosa.feature.rms` pipeline on the
non-degenerate path is an external library call, abstracted as the
`rmsOfFiltered` parameter (applied to the signal and the two normalized
cutoffs).  The degenerate path returns
`np.zeros(int(len(y) / hop_length) + 1)`. -/
def FeatureAnalyzer.bandpass_rms (rmsOfFiltered : List ℚ → ℚ → ℚ → List ℚ)
    (y : List ℚ) (low_freq high_freq : ℚ) (sr : ℕ) (hop_length : ℕ) : List ℚ :=
  let nyquist : ℚ := (sr : ℚ) / 2
  let low_norm := low_freq / nyquist
  let high_norm := min (high_freq / nyquist) (99/100)
  if high_norm ≤ low_norm then
    List.replicate (y.length / hop_length + 1) 0
  else
    rmsOfFiltered y low_norm high_norm

/-- Manifest metadata header (`ManifestMetadata` in exporter.py). -/
structure ManifestMetadata where
  bpm : ℚ
  duration : ℚ
  fps : ℕ
  n_frames : ℕ
  version : String
  schema_version : String

/-- One per-frame record of the manifest (the dict built by
`ManifestExporter._build_frame`, base fields plus the derived primitives
merged in by `_compute_primitives`).  `chroma_values` holds the 12 values in
`CHROMA_NAMES` order. -/
structure Frame where
  frame_index : ℕ
  time : ℚ
  is_beat : Bool
  is_onset : Bool
  percussive_impact : ℚ
  harmonic_energy : ℚ
  global_energy : ℚ
  spectral_flux : ℚ
  sub_bass : ℚ
  bass : ℚ
  low_mid : ℚ
  mid : ℚ
  high_mid : ℚ
  presence : ℚ
  brilliance : ℚ
  low_energy : ℚ
  mid_energy : ℚ
  high_energy : ℚ
  spectral_brightness : ℚ
  spectral_flatness : ℚ
  spectral_rolloff : ℚ
  zero_crossing_rate : ℚ
  dominant_chroma : String
  chroma_values : List ℚ
  impact : ℚ
  fluidity : ℚ
  brightness : ℚ
  pitch_hue : ℚ
  texture : ℚ
  sharpness : ℚ

/-- The complete manifest (dict returned by
`ManifestExporter.build_manifest`). -/
structure Manifest where
  metadata : ManifestMetadata
  frames : List Frame

/-- The `ManifestExporter` object state (`precision` constructor argument,
default 4). -/
structure ManifestExporter where
  precision : ℕ

/-- `ManifestExporter._round(value)`: `round(float(value), precision)`.
Modelled as rounding `value * 10^precision` to the nearest integer (Python
uses banker's rounding at exact half ties, Mathlib rounds half up; the two
agree off ties and both land on an integer multiple of `10^-precision`,
which is all the development uses). -/
def ManifestExporter.roundVal (e : ManifestExporter) (value : ℚ) : ℚ :=
  ((round (value * 10 ^ e.precision) : ℤ) : ℚ) / 10 ^ e.precision

/-- `ManifestExporter._build_frame(index, polished)` followed by the
`_compute_primitives` merge.  Array accesses use the index against arrays of
length `n_frames`; the embedding reads out of range as 0 via `getD` (the
Python code would raise there, and the theorems only use in-range frames).
The primitives are computed from the already-rounded frame fields, exactly
as `_compute_primitives` reads them back out of the frame dict. -/
def ManifestExporter.build_frame (e : ManifestExporter) (index : ℕ)
    (polished : PolishedFeatures) : Frame :=
  let chroma_idx : ℤ := polished.dominant_chroma_indices.getD index 0
  let dominant_chroma := chroma_index_to_name chroma_idx
  let percussive_impact := e.roundVal (polished.percussive_impact.getD index 0)
  let harmonic_energy := e.roundVal (polished.harmonic_energy.getD index 0)
  let global_energy := e.roundVal (polished.global_energy.getD index 0)
  let spectral_flux := e.roundVal (polished.spectral_flux.getD index 0)
  let sub_bass := e.roundVal (polished.sub_bass.getD index 0)
  let bass := e.roundVal (polished.bass.getD index 0)
  let low_mid := e.roundVal (polished.low_mid.getD index 0)
  let mid := e.roundVal (polished.mid.getD index 0)
  let high_mid := e.roundVal (polished.high_mid.getD index 0)
  let presence := e.roundVal (polished.presence.getD index 0)
  let brilliance := e.roundVal (polished.brilliance.getD index 0)
  let low_energy := e.roundVal (polished.low_energy.getD index 0)
  let mid_energy := e.roundVal (polished.mid_energy.getD index 0)
  let high_energy := e.roundVal (polished.high_energy.getD index 0)
  let spectral_brightness := e.roundVal (polished.spectral_brightness.getD index 0)
  let spectral_flatness := e.roundVal (polished.spectral_flatness.getD index 0)
  let spectral_rolloff := e.roundVal (polished.spectral_rolloff.getD index 0)
  let zero_crossing_rate := e.roundVal (polished.zero_crossing_rate.getD index 0)
  let chroma_values := (List.range 12).map
    (fun i => e.roundVal ((polished.chroma.getD i []).getD index 0))
  -- _compute_primitives on the frame dict above
  let impact := percussive_impact
  let fluidity := harmonic_energy
  let brightness := spectral_brightness
  let chroma_index :=
    if dominant_chroma ∈ CHROMA_NAMES then CHROMA_NAMES.indexOf dominant_chroma
    else 0
  let pitch_hue : ℚ := (chroma_index : ℚ) / ((CHROMA_NAMES.length : ℚ) - 1)
  let texture := max 0 (min 1
    ((spectral_flatness + zero_crossing_rate + presence + brilliance) / 4))
  let sharpness := max 0 (min 1 ((spectral_flux + spectral_rolloff) / 2))
  { frame_index := index
    time := e.roundVal (polished.frame_times.getD index 0)
    is_beat := polished.is_beat.getD index false
    is_onset := polished.is_onset.getD index false
    percussive_impact := percussive_impact
    harmonic_energy := harmonic_energy
    global_energy := global_energy
    spectral_flux := spectral_flux
    sub_bass := sub_bass
    bass := bass
    low_mid := low_mid
    mid := mid
    high_mid := high_mid
    presence := presence
    brilliance := brilliance
    low_energy := low_energy
    mid_energy := mid_energy
    high_energy := high_energy
    spectral_brightness := spectral_brightness
    spectral_flatness := spectral_flatness
    spectral_rolloff := spectral_rolloff
    zero_crossing_rate := zero_crossing_rate
    dominant_chroma := dominant_chroma
    chroma_values := chroma_values
    impact := impact
    fluidity := fluidity
    brightness := brightness
    pitch_hue := pitch_hue
    texture := texture
    sharpness := sharpness }

/-- `ManifestExporter.build_manifest(polished, bpm, duration)`:
rounded metadata plus one frame record per index in `range(n_frames)`. -/
def ManifestExporter.build_manifest (e : ManifestExporter)
    (polished : PolishedFeatures) (bpm duration : ℚ) : Manifest :=
  { metadata :=
      { bpm := e.roundVal bpm
        duration := e.roundVal duration
        fps := polished.fps
        n_frames := polished.n_frames
        version := "1.1"
        schema_version := "1.1" }
    frames := (List.range polished.n_frames).map (fun i => e.build_frame i polished) }

/-- Outcome of the cache-entry read attempted by `AudioPipeline.process`:
a successful hit, a missing entry (`cache_path.exists()` false), or an
exception while reading/parsing (unreadable file, corrupt JSON). -/
inductive CacheReadOutcome where
  | hit : Manifest → CacheReadOutcome
  | miss : CacheReadOutcome
  | corrupt : CacheReadOutcome

/-- The body of the cache-lookup `try` block in `AudioPipeline.process`:
returns the cached manifest, nothing when the file does not exist, or
throws on read/parse failure. -/
def tryLoadCache : CacheReadOutcome → Except String (Option Manifest)
  | CacheReadOutcome.hit m => Except.ok (some m)
  | CacheReadOutcome.miss => Except.ok none
  | CacheReadOutcome.corrupt => Except.error "cache read failed"

/-- The body of the cache-write `try` block in `AudioPipeline.process`:
throws exactly when writing the cache entry fails. -/
def trySaveCache (writeFails : Bool) : Except String Unit :=
  if writeFails then Except.error "cache write failed" else Except.ok ()

/-- Control flow of `AudioPipeline.process` (pipeline.py lines 176-272)
around the cache.  The decompose→analyze→polish→`to_dict` chain of the
cache-miss path is deterministic and is abstracted as the value
`fullResult` it produces.  Both cache `try` blocks catch every exception
(`except Exception`), so the returned `Except` is the function's actual
error channel; the boolean records whether the full pipeline ran. -/
def process (use_cache : Bool) (read : CacheReadOutcome) (writeFails : Bool)
    (fullResult : Manifest) : Except String (Manifest × Bool) :=
  let cached : Option Manifest :=
    if use_cache then
      match tryLoadCache read with
      | Except.ok r => r
      | Except.error _ => none    -- print and fall through to re-analysis
    else none
  match cached with
  | some m => Except.ok (m, false)
  | none =>
    let manifest := fullResult    -- Phases A-C + build_manifest
    let _save : Unit :=
      if use_cache then
        match trySaveCache writeFails with
        | Except.ok u => u
        | Except.error _ => ()    -- print "Failed to save cache"
      else ()
    Except.ok (manifest, true)

/-! ## Bounds helper lemmas -/

theorem clip_mem_Icc (x : ℚ) : 0 ≤ clip x 0 1 ∧ clip x 0 1 ≤ 1 := by
  unfold clip
  exact ⟨le_min (le_max_right x 0) zero_le_one, min_le_right _ _⟩

theorem mem_apply_envelope_bounds (p : SignalPolisher) (s : List ℚ)
    (params : EnvelopeParams) : ∀ x ∈ p.apply_envelope s params, 0 ≤ x ∧ x ≤ 1 := by
  intro x hx
  unfold SignalPolisher.apply_envelope at hx
  rcases List.mem_map.mp hx with ⟨y, _, rfl⟩
  exact clip_mem_Icc y

theorem mem_normalize_bounds (s : List ℚ) (fl : ℚ) :
    ∀ x ∈ normalize s fl, 0 ≤ x ∧ x ≤ 1 := by
  intro x hx
  simp only [normalize] at hx
  split at hx
  · rw [List.eq_of_mem_replicate hx]
    norm_num
  · rcases List.mem_map.mp hx with ⟨y, _, rfl⟩
    exact clip_mem_Icc _

theorem mem_normalizeChromaRows_bounds (c : List (List ℚ)) :
    ∀ row ∈ normalizeChromaRows c, ∀ x ∈ row, 0 ≤ x ∧ x ≤ 1 := by
  intro row hrow
  unfold normalizeChromaRows at hrow
  rcases List.mem_append.mp hrow with hl | hr
  · rcases List.mem_map.mp hl with ⟨r, _, rfl⟩
    exact fun x hx => mem_normalize_bounds r _ x hx
  · rcases List.mem_map.mp hr with ⟨r, _, rfl⟩
    intro x hx
    rcases List.mem_map.mp hx with ⟨y, _, rfl⟩
    norm_num

theorem mem_smooth_spectral_centroid_bounds (p : SignalPolisher)
    (centroid : List ℚ) (sr : ℕ) :
    ∀ x ∈ p.smooth_spectral_centroid centroid sr, 0 ≤ x ∧ x ≤ 1 := by
  intro x hx
  unfold SignalPolisher.smooth_spectral_centroid at hx
  exact mem_apply_envelope_bounds _ _ _ x hx

/-! ## C1: every continuous output of `polish` lies in [0,1] -/

/-- C1: for every `ExtractedFeatures` on which `SignalPolisher.polish`
succeeds, every element of every continuous per-frame output array
(`percussive_impact`, `harmonic_energy`, `global_energy`, `spectral_flux`,
the seven band arrays, the three legacy band arrays, `spectral_brightness`,
`spectral_flatness`, `spectral_rolloff`, `zero_crossing_rate`) lies in
[0, 1], and each chroma row independently has every element in [0, 1]. -/
theorem polish_bounded (p : SignalPolisher) (f : ExtractedFeatures)
    (pf : PolishedFeatures) (h : p.polish f = some pf) :
    (∀ x ∈ pf.percussive_impact, 0 ≤ x ∧ x ≤ 1) ∧
    (∀ x ∈ pf.harmonic_energy, 0 ≤ x ∧ x ≤ 1) ∧
    (∀ x ∈ pf.global_energy, 0 ≤ x ∧ x ≤ 1) ∧
    (∀ x ∈ pf.spectral_flux, 0 ≤ x ∧ x ≤ 1) ∧
    (∀ x ∈ pf.sub_bass, 0 ≤ x ∧ x ≤ 1) ∧
    (∀ x ∈ pf.bass, 0 ≤ x ∧ x ≤ 1) ∧
    (∀ x ∈ pf.low_mid, 0 ≤ x ∧ x ≤ 1) ∧
    (∀ x ∈ pf.mid, 0 ≤ x ∧ x ≤ 1) ∧
    (∀ x ∈ pf.high_mid, 0 ≤ x ∧ x ≤ 1) ∧
    (∀ x ∈ pf.presence, 0 ≤ x ∧ x ≤ 1) ∧
    (∀ x ∈ pf.brilliance, 0 ≤ x ∧ x ≤ 1) ∧
    (∀ x ∈ pf.low_energy, 0 ≤ x ∧ x ≤ 1) ∧
    (∀ x ∈ pf.mid_energy, 0 ≤ x ∧ x ≤ 1) ∧
    (∀ x ∈ pf.high_energy, 0 ≤ x ∧ x ≤ 1) ∧
    (∀ x ∈ pf.spectral_brightness, 0 ≤ x ∧ x ≤ 1) ∧
    (∀ x ∈ pf.spectral_flatness, 0 ≤ x ∧ x ≤ 1) ∧
    (∀ x ∈ pf.spectral_rolloff, 0 ≤ x ∧ x ≤ 1) ∧
    (∀ x ∈ pf.zero_crossing_rate, 0 ≤ x ∧ x ≤ 1) ∧
    (∀ row ∈ pf.chroma, ∀ x ∈ row, 0 ≤ x ∧ x ≤ 1) := by
  unfold SignalPolisher.polish at h
  split at h
  · split at h
    · simp at h
    · rw [Option.some_inj] at h
      subst h
      refine ⟨?_, ?_, ?_, ?_, ?_, ?_, ?_, ?_, ?_, ?_, ?_, ?_, ?_, ?_, ?_, ?_,
        ?_, ?_, ?_⟩
      all_goals
        first
        | exact mem_apply_envelope_bounds _ _ _
        | exact mem_smooth_spectral_centroid_bounds _ _ _
        | exact mem_normalizeChromaRows_bounds _
  · simp at h

/-- Concrete polisher input for the C1 witness: the pipeline's default
polisher configuration. -/
def pEx : SignalPolisher := ⟨60, ⟨0, 200⟩, ⟨50, 300⟩, false⟩

/-- Concrete two-frame `ExtractedFeatures` used by the C1 witness. -/
def fEx : ExtractedFeatures :=
  { temporal := ⟨120, [0], [0], [1], [1/60], none, none⟩
    energy := ⟨[0, 1], [0, 1], [1/2, 1], [0, 1],
      ⟨[0, 1], [0, 1], [0, 1], [0, 1], [0, 1], [0, 1], [0, 1],
        [0, 1], [0, 1], [0, 1]⟩⟩
    tonality := ⟨List.replicate 12 [0, 1], [200, 5000], [0, 1], [0, 1],
      [0, 1], [0, 4], none⟩
    n_frames := 2
    hop_length := 367
    sample_rate := 22050
    frame_times := [0, 1/60] }

/-- The polished features produced from `fEx` (evaluates concretely). -/
def pfEx : PolishedFeatures := (pEx.polish fEx).getD default

/-- Witness for C1: `polish` succeeds on the concrete input and the bounds
hold for its output. -/
theorem polish_bounded_witness :
    pEx.polish fEx = some pfEx ∧
    (∀ x ∈ pfEx.percussive_impact, 0 ≤ x ∧ x ≤ 1) ∧
    (∀ row ∈ pfEx.chroma, ∀ x ∈ row, 0 ≤ x ∧ x ≤ 1) := by
  have h := polish_bounded pEx fEx pfEx rfl
  exact ⟨rfl, h.1, h.2.2.2.2.2.2.2.2.2.2.2.2.2.2.2.2.2.2⟩

/-! ## C3: normalize semantics -/

theorem foldl_min_replicate (m : ℕ) (c : ℚ) :
    (List.replicate m c).foldl min c = c := by
  induction m with
  | zero => rfl
  | succ k ih => rw [List.replicate_succ, List.foldl_cons, min_self]; exact ih

theorem foldl_max_replicate (m : ℕ) (c : ℚ) :
    (List.replicate m c).foldl max c = c := by
  induction m with
  | zero => rfl
  | succ k ih => rw [List.replicate_succ, List.foldl_cons, max_self]; exact ih

theorem listMin_replicate (n : ℕ) (c : ℚ) (hn : 0 < n) :
    listMin (List.replicate n c) = c := by
  cases n with
  | zero => exact absurd hn (by norm_num)
  | succ m => rw [List.replicate_succ]; exact foldl_min_replicate m c

theorem listMax_replicate (n : ℕ) (c : ℚ) (hn : 0 < n) :
    listMax (List.replicate n c) = c := by
  cases n with
  | zero => exact absurd hn (by norm_num)
  | succ m => rw [List.replicate_succ]; exact foldl_max_replicate m c

/-- C3: `normalize(signal, floor=0.001)` returns the all-zero array of the
input's length whenever `max - min < floor` — in particular on every
constant array — and otherwise min-max scales and clips to [0, 1]. -/
theorem normalize_minmax (signal : List ℚ) (c : ℚ) (n : ℕ) :
    (listMax signal - listMin signal < 1/1000 →
      normalize signal (1/1000) = List.replicate signal.length 0) ∧
    normalize (List.replicate n c) (1/1000) = List.replicate n 0 ∧
    (1/1000 ≤ listMax signal - listMin signal →
      normalize signal (1/1000) =
        signal.map (fun x =>
          clip ((x - listMin signal) / (listMax signal - listMin signal)) 0 1)) := by
  refine ⟨fun h => ?_, ?_, fun h => ?_⟩
  · simp only [normalize]
    rw [if_pos h]
  · rcases Nat.eq_zero_or_pos n with rfl | hn
    · simp [normalize, listMin, listMax]
    · simp only [normalize, listMin_replicate n c hn, listMax_replicate n c hn,
        List.length_replicate]
      rw [if_pos (by norm_num)]
  · simp only [normalize]
    rw [if_neg (not_lt.mpr h)]

/-- Witness for C3: a near-constant pair collapses to zeros, a constant
array collapses to zeros, and a spread-out pair is min-max scaled. -/
theorem normalize_minmax_witness :
    normalize [(1:ℚ), 1] (1/1000) = [0, 0] ∧
    normalize (List.replicate 3 (5:ℚ)) (1/1000) = [0, 0, 0] ∧
    normalize [(0:ℚ), 2] (1/1000) = [0, 1] := by
  have h1 := (normalize_minmax [(1:ℚ), 1] 5 3).1
    (by norm_num [listMin, listMax])
  have h2 := (normalize_minmax [(1:ℚ), 1] 5 3).2.1
  have h3 := (normalize_minmax [(0:ℚ), 2] 5 3).2.2
    (by norm_num [listMin, listMax])
  refine ⟨?_, ?_, ?_⟩
  · rw [h1]; rfl
  · rw [h2]; rfl
  · rw [h3]
    norm_num [listMin, listMax, clip]

/-! ## C5 (corrected): hop length truncates, it does not round -/

/-- Counterexample to C5 as stated: at `sr = 22051`, `target_fps = 60`, the
code returns `int(22051/60) = 367` while the nearest integer to the
quotient is 368. -/
theorem compute_hop_length_not_round :
    FeatureAnalyzer.compute_hop_length ⟨60, 2048⟩ 22051 = 367 ∧
    round ((22051 : ℚ) / 60) = 368 ∧
    |(22051 : ℚ) / 60 - 368| < |(22051 : ℚ) / 60 - 367| := by
  refine ⟨?_, ?_,
    by rw [abs_of_nonpos (by norm_num), abs_of_nonneg (by norm_num)]; norm_num⟩
  · unfold FeatureAnalyzer.compute_hop_length
    rw [Int.floor_toNat, Nat.floor_div_nat, Nat.floor_natCast]
    rfl
  · rw [round_eq, show (22051 : ℚ) / 60 + 1 / 2 = 22081/60 by norm_num,
      show ⌊(22081/60 : ℚ)⌋ = 368 from by rw [Int.floor_eq_iff] <;> norm_num]

/-- C5 amended: `compute_hop_length(sr)` is `int(sr / target_fps)`, the
truncated (floored, for non-negative arguments) quotient — equal to natural
division `sr / target_fps`, not to the nearest integer. -/
theorem compute_hop_length_eq_div (a : FeatureAnalyzer) (sr : ℕ) :
    a.compute_hop_length sr = sr / a.target_fps := by
  unfold FeatureAnalyzer.compute_hop_length
  rw [Int.floor_toNat, Nat.floor_div_nat, Nat.floor_natCast]

/-! ## C6 (corrected): ms-to-frames truncates, it does not round -/

/-- Counterexample to C6 as stated: at `ms = 45`, `fps = 60` the quotient is
2.7; the code returns `max(1, int(2.7)) = 2` while `max(1, round(2.7))`
would be 3. -/
theorem ms_to_frames_not_round :
    SignalPolisher.ms_to_frames ⟨60, ⟨0, 200⟩, ⟨50, 300⟩, false⟩ 45 = 2 ∧
    max 1 (round ((45 : ℚ) / 1000 * 60)) = 3 := by
  constructor
  · unfold SignalPolisher.ms_to_frames
    rw [show (45 : ℚ) / 1000 *
        ((SignalPolisher.mk 60 ⟨0, 200⟩ ⟨50, 300⟩ false).fps : ℚ) = 27/10 by norm_num,
      show ⌊(27/10 : ℚ)⌋ = 2 from by rw [Int.floor_eq_iff] <;> norm_num]
    rfl
  · rw [round_eq, show (45 : ℚ) / 1000 * 60 + 1 / 2 = 16/5 by norm_num,
      show ⌊(16/5 : ℚ)⌋ = 3 from by rw [Int.floor_eq_iff] <;> norm_num]
    rfl

/-- C6 amended: the milliseconds-to-frames conversion used by
`apply_envelope` is `max(1, int(ms/1000 * fps))` where `int` truncates
toward zero — i.e. `max 1 ⌊ms/1000 * fps⌋₊` — not nearest-integer
rounding. -/
theorem ms_to_frames_eq_floor (p : SignalPolisher) (ms : ℚ) :
    p.ms_to_frames ms = max 1 ⌊ms / 1000 * (p.fps : ℚ)⌋₊ := by
  unfold SignalPolisher.ms_to_frames
  rw [Int.floor_toNat]

/-! ## C7 and C10: boolean event arrays -/

theorem create_arrays_agree (n : ℕ) (l : List ℤ) :
    create_beat_array n l = create_onset_array n l := rfl

theorem create_beat_array_nonneg_eq (n_frames : ℕ) (events : List ℤ)
    (hpos : ∀ b ∈ events, 0 ≤ b) :
    create_beat_array n_frames events =
      some ((List.range n_frames).map (fun (i : ℕ) => decide ((i : ℤ) ∈ events))) := by
  unfold create_beat_array
  rw [if_pos]
  · refine congrArg some (List.map_congr_left ?_)
    intro i hi
    have hi2 : i < n_frames := List.mem_range.mp hi
    by_cases hm : (i : ℤ) ∈ events
    · rw [decide_eq_true hm, List.any_eq_true]
      refine ⟨(i : ℤ), List.mem_filter.mpr ⟨hm, by simp; omega⟩, ?_⟩
      simp [pyIndex]
    · rw [decide_eq_false hm]
      rw [List.any_eq_false]
      intro b hb
      have hbe := List.mem_filter.mp hb
      have hb0 := hpos b hbe.1
      simp only [pyIndex, if_pos hb0, beq_iff_eq]
      intro hbi
      exact hm (hbi ▸ hbe.1)
  · rw [List.all_eq_true]
    intro b hb
    have hb0 := hpos b (List.mem_filter.mp hb).1
    simp only [decide_eq_true_eq]
    omega

/-- C7: on non-negative event indices, `create_beat_array(n_frames, events)`
(and identically `create_onset_array`) is the boolean array of length
`n_frames` that is True exactly at the positions `i < n_frames` with
`i ∈ events` — indices `≥ n_frames` are silently dropped, never wrapped or
clamped — and no exception occurs. -/
theorem create_event_arrays_spec (n_frames : ℕ) (events : List ℤ)
    (hpos : ∀ b ∈ events, 0 ≤ b) :
    create_beat_array n_frames events =
      some ((List.range n_frames).map (fun (i : ℕ) => decide ((i : ℤ) ∈ events))) ∧
    create_onset_array n_frames events =
      some ((List.range n_frames).map (fun (i : ℕ) => decide ((i : ℤ) ∈ events))) := by
  have h := create_beat_array_nonneg_eq n_frames events hpos
  exact ⟨h, (create_arrays_agree n_frames events) ▸ h⟩

/-- Witness for C7: three events, one of them beyond `n_frames`, mark
exactly the two in-range positions. -/
theorem create_event_arrays_spec_witness :
    (∀ b ∈ [(0 : ℤ), 2, 5], 0 ≤ b) ∧
    create_beat_array 3 [(0 : ℤ), 2, 5] = some [true, false, true] ∧
    create_onset_array 3 [(0 : ℤ), 2, 5] = some [true, false, true] := by
  have h := create_event_arrays_spec 3 [(0 : ℤ), 2, 5] (by decide)
  exact ⟨by decide, by rw [h.1]; rfl, by rw [h.2]; rfl⟩

/-- C10: a negative event index `-k` with `1 ≤ k ≤ n_frames` passes the
`< n_frames` filter and numpy's negative indexing marks position
`n_frames - k` True (wrap to the end, not dropped), in both
`create_beat_array` and `create_onset_array`; an index below `-n_frames`
raises (`none`) instead of being dropped. -/
theorem create_event_arrays_negative_wrap (n k : ℕ) (h1 : 1 ≤ k) (h2 : k ≤ n) :
    create_beat_array n [-(k : ℤ)] =
      some ((List.range n).map (fun i => decide (i = n - k))) ∧
    create_onset_array n [-(k : ℤ)] =
      some ((List.range n).map (fun i => decide (i = n - k))) ∧
    (∀ m : ℕ, n < m →
      create_beat_array n [-(m : ℤ)] = none ∧
      create_onset_array n [-(m : ℤ)] = none) := by
  have hmain : create_beat_array n [-(k : ℤ)] =
      some ((List.range n).map (fun i => decide (i = n - k))) := by
    unfold create_beat_array
    have hfil : ([-(k : ℤ)].filter (fun b => b < (n : ℤ))) = [-(k : ℤ)] := by
      simp only [List.filter]
      rw [decide_eq_true (by omega : -(k : ℤ) < (n : ℤ))]
    rw [hfil, if_pos (by simp; omega)]
    refine congrArg some (List.map_congr_left ?_)
    intro i hi
    have hi2 : i < n := List.mem_range.mp hi
    have hpy : pyIndex n (-(k : ℤ)) = ((n - k : ℕ) : ℤ) := by
      simp only [pyIndex, if_neg (by omega : ¬(0 : ℤ) ≤ -(k : ℤ))]
      omega
    simp only [List.any_cons, List.any_nil, Bool.or_false, hpy, beq_iff_eq]
    rcases Nat.decEq i (n - k) with hne | heq
    · rw [decide_eq_false hne]
      simp only [beq_eq_false_iff_ne, ne_eq]
      omega
    · rw [decide_eq_true heq]
      simp only [beq_iff_eq]
      omega
  have hnone : ∀ m : ℕ, n < m → create_beat_array n [-(m : ℤ)] = none := by
    intro m hm
    unfold create_beat_array
    have hfil : ([-(m : ℤ)].filter (fun b => b < (n : ℤ))) = [-(m : ℤ)] := by
      simp only [List.filter]
      rw [decide_eq_true (by omega : -(m : ℤ) < (n : ℤ))]
    rw [hfil, if_neg]
    simp
    omega
  exact ⟨hmain, (create_arrays_agree n _) ▸ hmain,
    fun m hm => ⟨hnone m hm, (create_arrays_agree n _) ▸ hnone m hm⟩⟩

/-- Witness for C10: in a 5-frame array the event `-2` marks position 3,
and the event `-7` raises. -/
theorem create_event_arrays_negative_wrap_witness :
    create_beat_array 5 [-((2 : ℕ) : ℤ)] = some [false, false, false, true, false] ∧
    create_onset_array 5 [-((2 : ℕ) : ℤ)] = some [false, false, false, true, false] ∧
    create_beat_array 5 [-((7 : ℕ) : ℤ)] = none := by
  have h := create_event_arrays_negative_wrap 5 2 (by norm_num) (by norm_num)
  exact ⟨by rw [h.1]; rfl, by rw [h.2.1]; rfl, (h.2.2 7 (by norm_num)).1⟩

/-! ## C8: degenerate band cutoffs yield zeros, not an exception -/

/-- C8: whenever the normalized cutoffs collapse
(`low/nyquist ≥ min(high/nyquist, 0.99)`), `_bandpass_rms` returns the
all-zero array of the expected per-frame length
`int(len(y)/hop_length) + 1`, for every signal and every abstract
filter+RMS pipeline — the degenerate branch never reaches the filter and
never raises. -/
theorem bandpass_rms_degenerate (rmsOfFiltered : List ℚ → ℚ → ℚ → List ℚ)
    (y : List ℚ) (low_freq high_freq : ℚ) (sr hop_length : ℕ)
    (hc : min (high_freq / ((sr : ℚ) / 2)) (99/100) ≤ low_freq / ((sr : ℚ) / 2)) :
    FeatureAnalyzer.bandpass_rms rmsOfFiltered y low_freq high_freq sr hop_length =
      List.replicate (y.length / hop_length + 1) 0 ∧
    (FeatureAnalyzer.bandpass_rms rmsOfFiltered y low_freq high_freq sr
      hop_length).length = y.length / hop_length + 1 ∧
    ∀ x ∈ FeatureAnalyzer.bandpass_rms rmsOfFiltered y low_freq high_freq sr
      hop_length, x = 0 := by
  have h : FeatureAnalyzer.bandpass_rms rmsOfFiltered y low_freq high_freq sr
      hop_length = List.replicate (y.length / hop_length + 1) 0 := by
    unfold FeatureAnalyzer.bandpass_rms
    rw [if_pos hc]
  refine ⟨h, by rw [h]; exact List.length_replicate _ _,
    fun x hx => List.eq_of_mem_replicate (h ▸ hx)⟩

/-- Witness for C8: a band of 500–40 Hz at `sr = 1000` collapses and a
3-sample signal at `hop = 2` produces two zero frames. -/
theorem bandpass_rms_degenerate_witness :
    min ((40 : ℚ) / ((1000 : ℚ) / 2)) (99/100) ≤ (500 : ℚ) / ((1000 : ℚ) / 2) ∧
    FeatureAnalyzer.bandpass_rms (fun _ _ _ => []) [1, 2, 3] 500 40 1000 2 =
      [0, 0] := by
  have hc : min ((40 : ℚ) / ((1000 : ℚ) / 2)) (99/100) ≤
      (500 : ℚ) / ((1000 : ℚ) / 2) := by norm_num
  have h := bandpass_rms_degenerate (fun _ _ _ => []) [1, 2, 3] 500 40 1000 2 hc
  exact ⟨hc, by rw [h.1]; rfl⟩

/-! ## C9: cache failures are absorbed by process -/

/-- C9: with `use_cache = true`, whenever the cache read fails to produce a
hit (missing entry or read/parse exception) — and independently of whether
the cache write fails — `process` still returns `ok` with the manifest of
the full decompose→analyze→polish→build pipeline and records that the full
pipeline ran; no cache error escapes. -/
theorem process_absorbs_cache_failures (read : CacheReadOutcome)
    (writeFails : Bool) (fullResult : Manifest)
    (hread : read = CacheReadOutcome.miss ∨ read = CacheReadOutcome.corrupt) :
    process true read writeFails fullResult = Except.ok (fullResult, true) := by
  rcases hread with rfl | rfl <;> cases writeFails <;> rfl

/-- Concrete empty manifest for the C9 witness. -/
def mEx : Manifest := ⟨⟨0, 0, 60, 0, "1.1", "1.1"⟩, []⟩

/-- Witness for C9: a corrupt cache read together with a failing cache
write still yields the full-pipeline result. -/
theorem process_absorbs_cache_failures_witness :
    process true CacheReadOutcome.corrupt true mEx = Except.ok (mEx, true) :=
  process_absorbs_cache_failures CacheReadOutcome.corrupt true mEx (Or.inr rfl)

/-! ## C4: envelope shape on an impulse -/

/-- An impulse signal: `k` zeros, a single 1, then zeros up to length `n`
(for `k < n`). -/
def impulse (n k : ℕ) : List ℚ :=
  List.replicate k 0 ++ 1 :: List.replicate (n - k - 1) 0

theorem clip_of_mem_Icc (x : ℚ) (h0 : 0 ≤ x) (h1 : x ≤ 1) : clip x 0 1 = x := by
  unfold clip
  rw [max_eq_left h0, min_eq_left h1]

theorem ms_to_frames_zero (p : SignalPolisher) : p.ms_to_frames 0 = 1 := by
  unfold SignalPolisher.ms_to_frames
  norm_num

theorem ms_to_frames_500_at_60 (p : SignalPolisher) (hfps : p.fps = 60) :
    p.ms_to_frames 500 = 30 := by
  unfold SignalPolisher.ms_to_frames
  rw [hfps, show (500 : ℚ) / 1000 * ((60 : ℕ) : ℚ) = ((30 : ℤ) : ℚ) by norm_num,
    Int.floor_intCast]
  rfl

theorem envStep_zero_zero (aF rF : ℕ) : envStep aF rF 0 0 = 0 := by
  unfold envStep
  rw [if_neg (lt_irrefl 0)]
  split <;> norm_num

theorem envStep_attack_instant (aF rF : ℕ) (h : aF ≤ 1) (c t : ℚ)
    (hct : c < t) : envStep aF rF c t = t := by
  unfold envStep
  rw [if_pos hct, if_pos h]

theorem envStep_release_towards_zero (aF rF : ℕ) (hrF : 1 < rF) (c : ℚ)
    (hc : 0 ≤ c) : envStep aF rF c 0 = c * (1 - 1 / (rF : ℚ)) := by
  unfold envStep
  rw [if_neg (not_lt.mpr hc), if_neg (by omega)]
  ring

theorem envRun_leading_zeros (aF rF m : ℕ) (l : List ℚ) :
    envRun aF rF 0 (List.replicate m 0 ++ l) =
      List.replicate m 0 ++ envRun aF rF 0 l := by
  induction m with
  | zero => rfl
  | succ j ih =>
    rw [List.replicate_succ, List.cons_append]
    simp only [envRun, envStep_zero_zero]
    rw [ih]
    rfl

theorem envRun_decay (aF rF : ℕ) (hrF : 1 < rF) (c : ℚ) (hc : 0 ≤ c) (m : ℕ) :
    envRun aF rF c (List.replicate m 0) =
      (List.range m).map (fun i => c * (1 - 1 / (rF : ℚ)) ^ (i + 1)) := by
  have hr0 : (0 : ℚ) ≤ 1 - 1 / (rF : ℚ) := by
    have h2 : (2 : ℚ) ≤ (rF : ℚ) := by exact_mod_cast hrF
    have : 1 / (rF : ℚ) ≤ 1 / 2 := by
      apply one_div_le_one_div_of_le <;> linarith
    linarith
  induction m generalizing c with
  | zero => rfl
  | succ j ih =>
    rw [List.replicate_succ]
    simp only [envRun]
    rw [envStep_release_towards_zero aF rF hrF c hc,
      ih (c * (1 - 1 / (rF : ℚ))) (mul_nonneg hc hr0),
      List.range_succ_eq_map, List.map_cons, List.map_map]
    congr 1
    · ring
    · refine List.map_congr_left ?_
      intro i _
      simp only [Function.comp, Nat.succ_eq_add_one, pow_succ]
      ring

/-- The enveloped impulse with instant attack and 500 ms release at 60 fps:
position `k + j` of the output carries `(29/30)^j` exactly (for `k+j`
within range). -/
theorem apply_envelope_impulse_formula (p : SignalPolisher) (n k : ℕ)
    (hk : k < n) (hfps : p.fps = 60) (j : ℕ) (hj : k + j < n) :
    (p.apply_envelope (impulse n k) ⟨0, 500⟩).getD (k + j) 0 =
      (29/30 : ℚ) ^ j := by
  have hrun : envRun 1 30 0 (impulse n k) =
      List.replicate k 0 ++ 1 ::
        (List.range (n - k - 1)).map (fun i => (29/30 : ℚ) ^ (i + 1)) := by
    unfold impulse
    rw [envRun_leading_zeros]
    simp only [envRun]
    rw [envStep_attack_instant 1 30 (le_refl 1) 0 1 (by norm_num),
      envRun_decay 1 30 (by norm_num) 1 (by norm_num)]
    congr 1
    congr 1
    refine List.map_congr_left ?_
    intro i _
    norm_num
  have hout : p.apply_envelope (impulse n k) ⟨0, 500⟩ =
      List.replicate k 0 ++ 1 ::
        (List.range (n - k - 1)).map (fun i => (29/30 : ℚ) ^ (i + 1)) := by
    have hmap : List.map ((fun x => clip x 0 1) ∘ fun i => (29/30 : ℚ) ^ (i + 1))
        (List.range (n - k - 1)) =
        List.map (fun i => (29/30 : ℚ) ^ (i + 1)) (List.range (n - k - 1)) := by
      refine List.map_congr_left ?_
      intro i _
      simp only [Function.comp]
      exact clip_of_mem_Icc _ (by positivity)
        (pow_le_one₀ (by norm_num) (by norm_num))
    unfold SignalPolisher.apply_envelope
    rw [ms_to_frames_zero, ms_to_frames_500_at_60 p hfps, hrun]
    simp only [List.map_append, List.map_cons, List.map_map, List.map_replicate]
    rw [clip_of_mem_Icc 0 (le_refl 0) (by norm_num),
      clip_of_mem_Icc 1 (by norm_num) (le_refl 1), hmap]
  rw [hout]
  rw [List.getD_eq_getElem?_getD, List.getElem?_append_right
    (by simpa using Nat.le_add_right k j)]
  simp only [List.length_replicate, Nat.add_sub_cancel_left]
  cases j with
  | zero => simp
  | succ i =>
    have hi : i < n - k - 1 := by omega
    simp [List.getElem?_map, List.getElem?_range hi]

/-- C4: with `attack_ms = 0` the enveloped impulse reaches exactly 1.0 at
the impulse frame (whatever the release time and fps); with
`release_ms = 500` at 60 fps, every frame after the impulse is strictly
below the previous one and stays strictly positive — a geometric decay at
ratio 29/30 per frame, no instant drop. -/
theorem apply_envelope_impulse (p : SignalPolisher) (rel : ℚ) (n k j : ℕ)
    (hk : k < n) :
    ((p.apply_envelope (impulse n k) ⟨0, rel⟩).getD k 0 = 1) ∧
    (p.fps = 60 → k + j + 1 < n →
      (p.apply_envelope (impulse n k) ⟨0, 500⟩).getD (k + j + 1) 0 <
        (p.apply_envelope (impulse n k) ⟨0, 500⟩).getD (k + j) 0 ∧
      0 < (p.apply_envelope (impulse n k) ⟨0, 500⟩).getD (k + j + 1) 0) := by
  constructor
  · unfold SignalPolisher.apply_envelope impulse
    rw [ms_to_frames_zero, envRun_leading_zeros]
    simp only [envRun]
    rw [envStep_attack_instant _ _ (le_refl 1) 0 1 (by norm_num)]
    rw [List.map_append, List.map_cons, List.map_replicate,
      clip_of_mem_Icc 0 (le_refl 0) (by norm_num),
      clip_of_mem_Icc 1 (by norm_num) (le_refl 1)]
    rw [List.getD_eq_getElem?_getD, List.getElem?_append_right
      (by simp), List.length_replicate]
    simp
  · intro hfps hj
    have e1 := apply_envelope_impulse_formula p n k hk hfps (j + 1) (by omega)
    have e0 := apply_envelope_impulse_formula p n k hk hfps j (by omega)
    rw [← Nat.add_assoc] at e1
    rw [e1, e0]
    constructor
    · exact pow_lt_pow_right_of_lt_one₀ (by norm_num) (by norm_num) (by omega)
    · positivity

/-- Witness for C4: a 10-frame impulse at frame 2 through the default
polisher reaches 1 at frame 2, and frames 3,4 decay strictly while staying
positive. -/
theorem apply_envelope_impulse_witness :
    (2 : ℕ) < 10 ∧
    ((SignalPolisher.mk 60 ⟨0, 200⟩ ⟨50, 300⟩ false).apply_envelope
      (impulse 10 2) ⟨0, 500⟩).getD 2 0 = 1 ∧
    (((SignalPolisher.mk 60 ⟨0, 200⟩ ⟨50, 300⟩ false).apply_envelope
      (impulse 10 2) ⟨0, 500⟩).getD 4 0 <
      ((SignalPolisher.mk 60 ⟨0, 200⟩ ⟨50, 300⟩ false).apply_envelope
        (impulse 10 2) ⟨0, 500⟩).getD 3 0 ∧
     0 < ((SignalPolisher.mk 60 ⟨0, 200⟩ ⟨50, 300⟩ false).apply_envelope
      (impulse 10 2) ⟨0, 500⟩).getD 4 0) := by
  have h := apply_envelope_impulse (SignalPolisher.mk 60 ⟨0, 200⟩ ⟨50, 300⟩ false)
    500 10 2 1 (by norm_num)
  exact ⟨by norm_num, h.1, h.2 rfl (by norm_num)⟩

/-! ## C2: manifest schema -/

theorem roundVal_mem_Icc (e : ManifestExporter) (v : ℚ) (h0 : 0 ≤ v)
    (h1 : v ≤ 1) : 0 ≤ e.roundVal v ∧ e.roundVal v ≤ 1 := by
  unfold ManifestExporter.roundVal
  have hp : (0 : ℚ) < 10 ^ e.precision := by positivity
  constructor
  · apply div_nonneg _ (le_of_lt hp)
    have hz : (0 : ℤ) ≤ round (v * 10 ^ e.precision) := by
      rw [round_eq]
      apply Int.le_floor.mpr
      push_cast
      nlinarith
    exact_mod_cast hz
  · rw [div_le_one hp]
    have h2 : round (v * 10 ^ e.precision) ≤ 10 ^ e.precision := by
      rw [round_eq]
      have hlt : ⌊v * 10 ^ e.precision + 1/2⌋ < 10 ^ e.precision + 1 := by
        apply Int.floor_lt.mpr
        push_cast
        nlinarith
      omega
    calc ((round (v * 10 ^ e.precision) : ℤ) : ℚ)
        ≤ ((10 ^ e.precision : ℤ) : ℚ) := by exact_mod_cast h2
      _ = 10 ^ e.precision := by push_cast; ring

theorem chroma_index_to_name_mem (i : ℤ) :
    chroma_index_to_name i ∈ CHROMA_NAMES := by
  unfold chroma_index_to_name
  have h1 : 0 ≤ i % 12 := Int.emod_nonneg i (by norm_num)
  have h2 : i % 12 < 12 := Int.emod_lt_of_pos i (by norm_num)
  have h3 : (i % 12).toNat < CHROMA_NAMES.length := by
    have h4 : (i % 12).toNat < 12 := by omega
    simpa [CHROMA_NAMES] using h4
  rw [List.getD_eq_getElem?_getD, List.getElem?_eq_getElem h3]
  exact List.getElem_mem h3

theorem getD_bounds (l : List ℚ) (h : ∀ x ∈ l, 0 ≤ x ∧ x ≤ 1) (i : ℕ) :
    0 ≤ l.getD i 0 ∧ l.getD i 0 ≤ 1 := by
  by_cases hi : i < l.length
  · rw [List.getD_eq_getElem?_getD, List.getElem?_eq_getElem hi]
    exact h _ (List.getElem_mem hi)
  · rw [List.getD_eq_getElem?_getD, List.getElem?_eq_none (by omega)]
    norm_num

theorem pitch_hue_bounds (name : String) :
    0 ≤ ((if name ∈ CHROMA_NAMES then CHROMA_NAMES.indexOf name else 0 : ℕ) : ℚ) /
        ((CHROMA_NAMES.length : ℚ) - 1) ∧
      ((if name ∈ CHROMA_NAMES then CHROMA_NAMES.indexOf name else 0 : ℕ) : ℚ) /
        ((CHROMA_NAMES.length : ℚ) - 1) ≤ 1 := by
  have hle : (if name ∈ CHROMA_NAMES then CHROMA_NAMES.indexOf name else 0) ≤ 11 := by
    split
    · have hlt := List.indexOf_lt_length.mpr (by assumption : name ∈ CHROMA_NAMES)
      have hl12 : CHROMA_NAMES.length = 12 := rfl
      omega
    · omega
  have hlen : ((CHROMA_NAMES.length : ℚ) - 1) = 11 := by
    simp [CHROMA_NAMES]
    norm_num
  rw [hlen]
  constructor
  · positivity
  · rw [div_le_one (by norm_num)]
    exact_mod_cast le_trans (Nat.cast_le.mpr hle) (by norm_num)

theorem clamp01_mem (v : ℚ) : 0 ≤ max 0 (min 1 v) ∧ max 0 (min 1 v) ≤ 1 :=
  ⟨le_max_left 0 _, max_le (by norm_num) (min_le_left 1 v)⟩

theorem build_frame_fields (e : ManifestExporter) (i : ℕ) (pf : PolishedFeatures) :
    (e.build_frame i pf).frame_index = i ∧
    (e.build_frame i pf).dominant_chroma =
      chroma_index_to_name (pf.dominant_chroma_indices.getD i 0) ∧
    (e.build_frame i pf).impact = e.roundVal (pf.percussive_impact.getD i 0) ∧
    (e.build_frame i pf).fluidity = e.roundVal (pf.harmonic_energy.getD i 0) ∧
    (e.build_frame i pf).brightness =
      e.roundVal (pf.spectral_brightness.getD i 0) ∧
    (e.build_frame i pf).pitch_hue =
      ((if chroma_index_to_name (pf.dominant_chroma_indices.getD i 0) ∈ CHROMA_NAMES
        then CHROMA_NAMES.indexOf
          (chroma_index_to_name (pf.dominant_chroma_indices.getD i 0))
        else 0 : ℕ) : ℚ) / ((CHROMA_NAMES.length : ℚ) - 1) ∧
    (e.build_frame i pf).texture =
      max 0 (min 1 ((e.roundVal (pf.spectral_flatness.getD i 0) +
        e.roundVal (pf.zero_crossing_rate.getD i 0) +
        e.roundVal (pf.presence.getD i 0) +
        e.roundVal (pf.brilliance.getD i 0)) / 4)) ∧
    (e.build_frame i pf).sharpness =
      max 0 (min 1 ((e.roundVal (pf.spectral_flux.getD i 0) +
        e.roundVal (pf.spectral_rolloff.getD i 0)) / 2)) :=
  ⟨rfl, rfl, rfl, rfl, rfl, rfl, rfl, rfl⟩

/-- C2: for every `PolishedFeatures` whose relevant continuous signals obey
the [0,1] data-model bound, `build_manifest` emits exactly `n_frames` frame
records in order, each record's `frame_index` equal to its position,
`dominant_chroma` one of the 12 canonical note names, and the six derived
primitives `impact`, `fluidity`, `brightness`, `pitch_hue`, `texture`,
`sharpness` present with values in [0,1]. -/
theorem build_manifest_schema (e : ManifestExporter) (pf : PolishedFeatures)
    (bpm duration : ℚ)
    (h1 : ∀ x ∈ pf.percussive_impact, 0 ≤ x ∧ x ≤ 1)
    (h2 : ∀ x ∈ pf.harmonic_energy, 0 ≤ x ∧ x ≤ 1)
    (h3 : ∀ x ∈ pf.spectral_brightness, 0 ≤ x ∧ x ≤ 1) :
    (e.build_manifest pf bpm duration).frames.length = pf.n_frames ∧
    ∀ i, i < pf.n_frames →
      (e.build_manifest pf bpm duration).frames[i]? = some (e.build_frame i pf) ∧
      (e.build_frame i pf).frame_index = i ∧
      (e.build_frame i pf).dominant_chroma ∈ CHROMA_NAMES ∧
      (0 ≤ (e.build_frame i pf).impact ∧ (e.build_frame i pf).impact ≤ 1) ∧
      (0 ≤ (e.build_frame i pf).fluidity ∧ (e.build_frame i pf).fluidity ≤ 1) ∧
      (0 ≤ (e.build_frame i pf).brightness ∧
        (e.build_frame i pf).brightness ≤ 1) ∧
      (0 ≤ (e.build_frame i pf).pitch_hue ∧
        (e.build_frame i pf).pitch_hue ≤ 1) ∧
      (0 ≤ (e.build_frame i pf).texture ∧ (e.build_frame i pf).texture ≤ 1) ∧
      (0 ≤ (e.build_frame i pf).sharpness ∧
        (e.build_frame i pf).sharpness ≤ 1) := by
  constructor
  · simp [ManifestExporter.build_manifest]
  · intro i hi
    obtain ⟨hfi, hdc, him, hfl, hbr, hph, htx, hsh⟩ := build_frame_fields e i pf
    refine ⟨?_, hfi, ?_, ?_, ?_, ?_, ?_, ?_, ?_⟩
    · simp [ManifestExporter.build_manifest, List.getElem?_range hi]
    · rw [hdc]
      exact chroma_index_to_name_mem _
    · rw [him]
      exact roundVal_mem_Icc e _ (getD_bounds _ h1 i).1 (getD_bounds _ h1 i).2
    · rw [hfl]
      exact roundVal_mem_Icc e _ (getD_bounds _ h2 i).1 (getD_bounds _ h2 i).2
    · rw [hbr]
      exact roundVal_mem_Icc e _ (getD_bounds _ h3 i).1 (getD_bounds _ h3 i).2
    · rw [hph]
      exact pitch_hue_bounds _
    · rw [htx]
      exact clamp01_mem _
    · rw [hsh]
      exact clamp01_mem _

/-- Concrete single-frame polished features for the C2 witness (dominant
chroma index 9 = "A"). -/
def plEx : PolishedFeatures :=
  ⟨[true], [false], [1/2], [1/3], [1/4], [1/5], [0], [0], [0], [0], [0], [0],
    [0], [0], [0], [0], [3/4], [0], [0], [0], List.replicate 12 [1], [9],
    1, 60, [0]⟩

/-- Concrete exporter (default precision 4) for the C2 witness. -/
def expEx : ManifestExporter := ⟨4⟩

/-- Witness for C2: the bound hypotheses hold for the concrete polished
features and the manifest built from them has the claimed shape. -/
theorem build_manifest_schema_witness :
    (∀ x ∈ plEx.percussive_impact, 0 ≤ x ∧ x ≤ 1) ∧
    (expEx.build_manifest plEx 120 2).frames.length = plEx.n_frames ∧
    ((expEx.build_frame 0 plEx).frame_index = 0 ∧
      (expEx.build_frame 0 plEx).dominant_chroma ∈ CHROMA_NAMES ∧
      0 ≤ (expEx.build_frame 0 plEx).impact ∧
      (expEx.build_frame 0 plEx).impact ≤ 1) := by
  have hb1 : ∀ x ∈ plEx.percussive_impact, 0 ≤ x ∧ x ≤ 1 := by
    intro x hx
    simp only [plEx, List.mem_singleton] at hx
    subst hx
    norm_num
  have hb2 : ∀ x ∈ plEx.harmonic_energy, 0 ≤ x ∧ x ≤ 1 := by
    intro x hx
    simp only [plEx, List.mem_singleton] at hx
    subst hx
    norm_num
  have hb3 : ∀ x ∈ plEx.spectral_brightness, 0 ≤ x ∧ x ≤ 1 := by
    intro x hx
    simp only [plEx, List.mem_singleton] at hx
    subst hx
    norm_num
  obtain ⟨hlen, hall⟩ := build_manifest_schema expEx plEx 120 2 hb1 hb2 hb3
  have h0 := hall 0 (by norm_num [plEx])
  exact ⟨hb1, hlen, h0.2.1, h0.2.2.1, h0.2.2.2.1⟩

end Chromascope
